import Mathlib

/-!
Shallow embedding of the llmgraph library (Rust) for verifying its
natural-language specification.

The embedding covers:
* the tool data model and the two-tier registry composition
  (`src/models/tools.rs`);
* the graph execution engine: the dispatch loop and `add_edge`
  (`src/models/graph.rs`);
* the Retry combinator (`src/agents/retry.rs`);
* the Stateful wrapper (`src/agents/state.rs`);
* the Parallel combinator (`src/agents/parallel.rs`);
* the test agents `EchoAgent` and `FixedRouteAgent` (`src/tests.rs`).

Modelling conventions: Rust `HashMap` becomes an association list;
`usize` becomes `Nat` and `i32` becomes `Int`; fallible operations
return `Except String`; trait objects (`dyn ToolRegistryTrait`,
`dyn Agent`) become records of their observable behaviour; the
potentially nonterminating dispatch loop takes explicit fuel and
returns `none` when the fuel runs out before the loop stops.  Where a
claim speaks about the number of inner-agent invocations, the embedded
loop additionally returns that count; the counter is pure
instrumentation and does not influence control flow.
-/

namespace LLMGraph

/-- JSON values, standing in for `serde_json::Value` (numbers are
modelled as integers; no claim depends on float payloads). -/
inductive Value where
  | null
  | bool (b : Bool)
  | num (n : Int)
  | str (s : String)
  | arr (elems : List Value)
  | obj (fields : List (String × Value))

/-- Character-list infix test: `pat` occurs contiguously in the
scanned list. -/
def listContainsInfix (pat : List Char) : List Char → Bool
  | [] => pat.isEmpty
  | c :: rest => pat.isPrefixOf (c :: rest) || listContainsInfix pat rest

/-- Substring test, standing in for Rust `str::contains`. -/
def strContains (s pat : String) : Bool :=
  listContainsInfix pat.data s.data

/-- Rust `str::to_lowercase`, rendered character-by-character (the
default retry predicate only ever lowercases before an ASCII substring
search, and every string a claim touches is ASCII). -/
def strToLower (s : String) : String :=
  String.mk (s.data.map Char.toLower)

/-- Prefix test, standing in for Rust `str::starts_with`. -/
def strStartsWith (s pat : String) : Bool :=
  pat.data.isPrefixOf s.data

/-- Nested parameter property (`Property` in `src/models/tools.rs`);
`items` models the `Option<Box<Property>>` field. -/
inductive Property where
  | mk (prop_type : String) (description : Option String) (items : Option Property)

/-- Parameter block of a function (`Parameters` in `src/models/tools.rs`);
the `HashMap<String, Property>` becomes an association list. -/
structure Parameters where
  param_type : String
  properties : List (String × Property)
  required : List String

/-- Function definition of a tool (`Function` in `src/models/tools.rs`). -/
structure Function where
  name : String
  description : String
  parameters : Parameters

/-- A callable tool (`Tool` in `src/models/tools.rs`). -/
structure Tool where
  tool_type : String
  function : Function

/-- A tool registry as its observable behaviour: the two methods of the
Rust trait `ToolRegistryTrait` (`src/models/tools.rs`).  Both the
concrete `ToolRegistry` and any user-defined registry are instances of
this shape; `CombinedToolRegistry` is generic over `&dyn
ToolRegistryTrait`, so its embedding below quantifies over this
record. -/
structure ToolRegistryTrait where
  get_tools : List Tool
  execute_tool : String → String → Except String Value

/-- The scoped view over two registries (`CombinedToolRegistry` in
`src/models/tools.rs`): `primary` is the node-local registry, taking
precedence; `secondary` the global one. -/
structure CombinedToolRegistry where
  primary : ToolRegistryTrait
  secondary : ToolRegistryTrait

/-- `CombinedToolRegistry::get_tools`: start from the secondary's
tools, drop (`Vec::retain`) every one whose name also occurs in the
primary, then append (`Vec::extend`) the primary's tools. -/
def CombinedToolRegistry.get_tools (c : CombinedToolRegistry) : List Tool :=
  let tools := c.secondary.get_tools
  let primary_tools := c.primary.get_tools
  let tools := tools.filter (fun tool =>
    !(primary_tools.any (fun t => t.function.name == tool.function.name)))
  tools ++ primary_tools

/-- `CombinedToolRegistry::execute_tool`: try the primary; on any
`Err` — whatever its message — fall through to the secondary.  This is
the literal `if let Ok(result) = self.primary.execute_tool(...)`
translation. -/
def CombinedToolRegistry.execute_tool (c : CombinedToolRegistry)
    (name arguments : String) : Except String Value :=
  match c.primary.execute_tool name arguments with
  | .ok result => .ok result
  | .error _ => c.secondary.execute_tool name arguments

/-- The combined registry packaged back up as a `ToolRegistryTrait`
value, as the `impl ToolRegistryTrait for CombinedToolRegistry` lets
the dispatch loop pass it to agents. -/
def CombinedToolRegistry.view (c : CombinedToolRegistry) : ToolRegistryTrait :=
  { get_tools := c.get_tools, execute_tool := c.execute_tool }

/-- A registry exposing no tools; `execute_tool` answers with the
`Tool '<name>' not found` error of `ToolRegistry::execute_tool`. -/
def emptyRegistry : ToolRegistryTrait :=
  { get_tools := []
    execute_tool := fun name _ => .error ("Tool '" ++ name ++ "' not found") }

/-- A tool named `X` as the primary registry of the C1 scenario
exposes it. -/
def xTool : Tool :=
  { tool_type := "function"
    function :=
      { name := "X"
        description := "primary tool X"
        parameters := { param_type := "object", properties := [], required := [] } } }

/-- Primary registry for the C1 scenario: it exposes tool `X`, whose
callable fails with the execution error `boom` (in the Rust library:
`register_tool(xTool, |_| Err("boom".to_string()))`). -/
def c1Primary : ToolRegistryTrait :=
  { get_tools := [xTool]
    execute_tool := fun name _ =>
      if name == "X" then .error "boom"
      else .error ("Tool '" ++ name ++ "' not found") }

/-- Registry pair for the C5 scenario's primary: tools `X` and `Y`
(the primary's own definition of `X`). -/
def xToolPrimary : Tool := xTool

/-- Tool `Y`, exposed by the C5 scenario's primary registry. -/
def yTool : Tool :=
  { tool_type := "function"
    function :=
      { name := "Y"
        description := "tool Y"
        parameters := { param_type := "object", properties := [], required := [] } } }

/-- The secondary's own — different — definition of tool `X` in the C5
scenario. -/
def xToolSecondary : Tool :=
  { tool_type := "function"
    function :=
      { name := "X"
        description := "secondary tool X"
        parameters := { param_type := "object", properties := [], required := [] } } }

/-- Tool `Z`, exposed by the C5 scenario's secondary registry. -/
def zTool : Tool :=
  { tool_type := "function"
    function :=
      { name := "Z"
        description := "tool Z"
        parameters := { param_type := "object", properties := [], required := [] } } }

/-- C5 scenario primary registry exposing `{X, Y}`. -/
def c5Primary : ToolRegistryTrait :=
  { get_tools := [xToolPrimary, yTool]
    execute_tool := fun name _ => .error ("Tool '" ++ name ++ "' not found") }

/-- C5 scenario secondary registry exposing `{X, Z}`. -/
def c5Secondary : ToolRegistryTrait :=
  { get_tools := [xToolSecondary, zTool]
    execute_tool := fun name _ => .error ("Tool '" ++ name ++ "' not found") }

/-- The names of a list of tool specs, for stating dedup-by-name. -/
def toolNames (ts : List Tool) : List String :=
  ts.map (fun t => t.function.name)

-- -----------------------------
-- Retry combinator (src/agents/retry.rs)
-- -----------------------------

/-- The Retry combinator (`RetryAgent` in `src/agents/retry.rs`).  The
stateful inner agent is modelled as the sequence of its results: `inner
n` is the `(output, next_node)` pair produced by its `n`-th invocation
(0-based).  The backoff strategy only determines sleep durations, which
real time does not reach the embedding; the name and verbose flag only
affect logging.  None of the three influences the returned value, so
they are omitted. -/
structure RetryAgent where
  inner : Nat → String × Option Int
  max_retries : Nat
  retry_condition : Option (String → Bool)

/-- `RetryAgent::should_retry`: the custom predicate when one is set,
otherwise the default — empty output or, case-insensitively, one of the
substrings `error`, `failed`, `exception`. -/
def RetryAgent.should_retry (a : RetryAgent) (output : String) : Bool :=
  match a.retry_condition with
  | some condition => condition output
  | none =>
      output.isEmpty
        || strContains (strToLower output) "error"
        || strContains (strToLower output) "failed"
        || strContains (strToLower output) "exception"

/-- The `for attempt in 0..=max_retries` loop of `RetryAgent::run`,
with the remaining number of loop iterations as explicit fuel
(`run` below starts it with all `max_retries + 1` iterations, so the
fuel-0 branch is the code after the loop).  The returned `Nat` counts
the inner agent's invocations; it is instrumentation only.  The fuel-0
branch is the post-loop `format!("All {} retries exhausted. Last
output: {}", ...)` of the source. -/
def RetryAgent.runFrom (a : RetryAgent) :
    Nat → Nat → String → Option Int → Nat → (String × Option Int) × Nat
  | 0, _, last_output, last_next_node, calls =>
      (("All " ++ toString a.max_retries ++ " retries exhausted. Last output: "
          ++ last_output, last_next_node), calls)
  | fuel + 1, attempt, _, _, calls =>
      let r := a.inner attempt
      if !(a.should_retry r.1) || attempt == a.max_retries then
        (r, calls + 1)
      else
        a.runFrom fuel (attempt + 1) r.1 r.2 (calls + 1)

/-- `RetryAgent::run`: run the attempt loop from attempt 0 with empty
`last_output` and `None` `last_next_node`.  Returns the combinator's
`(output, next_node)` result paired with the number of inner-agent
invocations. -/
def RetryAgent.run (a : RetryAgent) : (String × Option Int) × Nat :=
  a.runFrom (a.max_retries + 1) 0 "" none 0

/-- Inner agent of the C2 scenario: every invocation produces the
failing output `error` with next node 7. -/
def c2Inner : Nat → String × Option Int := fun _ => ("error", some 7)

/-- Retry combinator of the C2 scenario: `max_retries = 3`, default
failure predicate, wrapping an always-failing inner agent. -/
def c2Agent : RetryAgent :=
  { inner := c2Inner, max_retries := 3, retry_condition := none }

/-- Inner agent of the C3 witness scenario: fails (output `error`) on
its first two invocations, then succeeds with `("ok", Some 5)`. -/
def c3Inner : Nat → String × Option Int :=
  fun i => if i < 2 then ("error", none) else ("ok", some 5)

/-- Retry combinator of the C3 witness scenario. -/
def c3Agent : RetryAgent :=
  { inner := c3Inner, max_retries := 3, retry_condition := none }

-- -----------------------------
-- Stateful wrapper (src/agents/state.rs)
-- -----------------------------

/-- Persistent state of the Stateful wrapper (`AgentState` in
`src/agents/state.rs`). -/
structure AgentState where
  data : List (String × Value)
  history : List String
  context : Option String
  execution_count : Nat

/-- `AgentState::default`. -/
def AgentState.default : AgentState :=
  { data := [], history := [], context := none, execution_count := 0 }

/-- The Stateful wrapper (`StatefulAgent` in `src/agents/state.rs`).
The processor closure mutates the state through `&mut`, so its
embedding returns the updated state alongside the `(output, next)`
pair.  The `Arc<Mutex<...>>` around the state is single-owner within
one invocation and is dropped from the embedding. -/
structure StatefulAgent where
  name : String
  state : AgentState
  processor : Option (String → AgentState → (String × Option Int) × AgentState)
  max_history : Nat

/-- `StatefulAgent::new`: default state, no processor, `max_history = 100`. -/
def StatefulAgent.new (name : String) : StatefulAgent :=
  { name := name, state := AgentState.default, processor := none, max_history := 100 }

/-- `StatefulAgent::with_max_history`. -/
def StatefulAgent.with_max_history (a : StatefulAgent) (max : Nat) : StatefulAgent :=
  { a with max_history := max }

/-- The unconditional state-update prefix of `StatefulAgent::run`
(the `// Update state` and `// Trim history` block): increment
`execution_count`, push the raw input onto `history`, and if the
history length now exceeds `max_history`, `Vec::remove(0)` the oldest
entry. -/
def StatefulAgent.updateState (a : StatefulAgent) (input : String) : AgentState :=
  let state := a.state
  let state := { state with execution_count := state.execution_count + 1 }
  let state := { state with history := state.history ++ [input] }
  if state.history.length > a.max_history then
    { state with history := state.history.eraseIdx 0 }
  else
    state

/-- `StatefulAgent::run`: apply the state update, then either run the
custom processor on the updated state or produce the default report
message.  Returns the `(output, next)` pair and the wrapper with its
new state. -/
def StatefulAgent.run (a : StatefulAgent) (input : String) :
    (String × Option Int) × StatefulAgent :=
  let state := a.updateState input
  match a.processor with
  | some processor =>
      let result := processor input state
      (result.1, { a with state := result.2 })
  | none =>
      (("Stateful agent processed: " ++ input ++ " (execution #"
          ++ toString state.execution_count ++ ", history: "
          ++ toString state.history.length ++ " items)", none),
        { a with state := state })

/-- Fold a sequence of invocations of the Stateful wrapper, keeping
the evolving wrapper and discarding the outputs (driver for the
`maxHistory = 5`, 8 invocations scenario). -/
def StatefulAgent.runInputs (a : StatefulAgent) (inputs : List String) : StatefulAgent :=
  inputs.foldl (fun acc inp => (acc.run inp).2) a

/-- The C4 scenario wrapper: `maxHistory = 5`. -/
def c4Agent : StatefulAgent :=
  (StatefulAgent.new "MemoryAgent").with_max_history 5

/-- The 8 inputs of the C4 scenario. -/
def c4Inputs : List String :=
  ["in1", "in2", "in3", "in4", "in5", "in6", "in7", "in8"]

-- -----------------------------
-- Parallel combinator (src/agents/parallel.rs)
-- -----------------------------

/-- An agent behind the `Agent` trait as the graph and the combinators
see it: `run(input, tool_registry) -> (output, next_node)`. -/
def AgentFun := String → ToolRegistryTrait → String × Option Int

/-- One hexadecimal digit, lower case. -/
def hexDigit (n : Nat) : Char :=
  if n < 10 then Char.ofNat (48 + n) else Char.ofNat (87 + n)

/-- JSON string escaping of one character, as `serde_json` emits it:
quote, backslash and the named control escapes, `\u00XX` for the
remaining control characters, everything else verbatim. -/
def jsonEscapeChar (c : Char) : String :=
  if c = '\"' then "\\\""
  else if c = '\\' then "\\\\"
  else if c = Char.ofNat 8 then "\\b"
  else if c = Char.ofNat 9 then "\\t"
  else if c = Char.ofNat 10 then "\\n"
  else if c = Char.ofNat 12 then "\\f"
  else if c = Char.ofNat 13 then "\\r"
  else if c.toNat < 32 then
    "\\u00" ++ String.singleton (hexDigit (c.toNat / 16))
      ++ String.singleton (hexDigit (c.toNat % 16))
  else String.singleton c

/-- A JSON string literal for `s`, as `serde_json` serializes it. -/
def jsonString (s : String) : String :=
  "\"" ++ String.join (s.data.map jsonEscapeChar) ++ "\""

/-- The compact serialization `serde_json::json!(results).to_string()`
of a vector of strings: a JSON array of string literals with `,`
separators and no spaces. -/
def jsonArrayOfStrings (results : List String) : String :=
  "[" ++ String.intercalate "," (results.map jsonString) ++ "]"

/-- Result-combination strategy of the Parallel combinator
(`CombineStrategy` in `src/agents/parallel.rs`). -/
inductive CombineStrategy where
  | Concatenate
  | FirstValid
  | JsonArray
  | Custom (combiner : List String → String)

/-- The Parallel combinator (`ParallelAgent` in
`src/agents/parallel.rs`).  Inner agents are recorded in registration
order; `timeout` keeps only whether a timeout is configured (its
`Duration` is real time, which the embedding does not measure). -/
structure ParallelAgent where
  agents : List AgentFun
  strategy : CombineStrategy
  name : String
  timeout : Option Nat

/-- `ParallelAgent::new`. -/
def ParallelAgent.new : ParallelAgent :=
  { agents := [], strategy := .Concatenate, name := "Parallel", timeout := none }

/-- `ParallelAgent::combine_results`. -/
def ParallelAgent.combine_results (a : ParallelAgent) (results : List String) : String :=
  match a.strategy with
  | .Concatenate => String.intercalate "\n" results
  | .FirstValid => ((results.find? (fun s => !s.isEmpty)).getD "")
  | .JsonArray => jsonArrayOfStrings results
  | .Custom combiner => combiner results

/-- `ParallelAgent::run`.  `futures::future::join_all` delivers the
inner agents' outputs in registration order whatever their completion
order, which the embedding renders as a `map` over the registered
agents; whether a configured timeout elapses before all inner agents
finish is real time, modelled by the oracle parameter `timed_out`
(only consulted when a timeout is configured, as in the source). -/
def ParallelAgent.run (a : ParallelAgent) (input : String)
    (tool_registry : ToolRegistryTrait) (timed_out : Bool) : String × Option Int :=
  if a.agents.isEmpty then
    ("No agents configured for parallel execution", none)
  else
    match a.timeout with
    | some _ =>
        if timed_out then
          ("Parallel execution timed out", none)
        else
          let results := a.agents.map (fun ag => (ag input tool_registry).1)
          (a.combine_results results, none)
    | none =>
        let results := a.agents.map (fun ag => (ag input tool_registry).1)
        (a.combine_results results, none)

/-- The three constant inner agents of the C8 witness scenario. -/
def constAgent (out : String) : AgentFun := fun _ _ => (out, none)

/-- The C8 witness combinator: agents producing `a`, `b`, `c`
registered in that order, `JsonArray` strategy, no timeout. -/
def c8Agent : ParallelAgent :=
  { agents := [constAgent "a", constAgent "b", constAgent "c"]
    strategy := .JsonArray
    name := "Parallel"
    timeout := none }

-- -----------------------------
-- Graph engine (src/models/graph.rs)
-- -----------------------------

/-- A node of the graph (`Node` in `src/models/graph.rs`): its agent,
its adjacency list and its node-local tool registry. -/
structure Node where
  agent : AgentFun
  neighbors : List Int
  tool_registry : ToolRegistryTrait

/-- The agent graph (`Graph` in `src/models/graph.rs`): the
`HashMap<i32, Node>` as an association list, plus the shared global
tool registry. -/
structure Graph where
  nodes : List (Int × Node)
  tool_registry : ToolRegistryTrait

/-- `HashMap::contains_key` on the node map. -/
def Graph.containsKey (g : Graph) (id : Int) : Bool :=
  (g.nodes.lookup id).isSome

/-- Apply `f` to the node stored under `id`, leaving the map otherwise
unchanged — the association-list rendering of
`self.nodes.get_mut(&id)` followed by a mutation of that node. -/
def Graph.updateNode (g : Graph) (id : Int) (f : Node → Node) : Graph :=
  { g with nodes := g.nodes.map (fun p => if p.1 = id then (p.1, f p.2) else p) }

/-- `Graph::add_edge`: error when either endpoint is absent; otherwise
push `v` onto `u`'s neighbor list unless already present, and
symmetrically `u` onto `v`'s. -/
def Graph.add_edge (g : Graph) (u v : Int) : Except String Graph :=
  if !(g.containsKey u) || !(g.containsKey v) then
    .error "One or both nodes do not exist"
  else
    let g1 := g.updateNode u (fun node =>
      if node.neighbors.contains v then node
      else { node with neighbors := node.neighbors ++ [v] })
    let g2 := g1.updateNode v (fun node =>
      if node.neighbors.contains u then node
      else { node with neighbors := node.neighbors ++ [u] })
    .ok g2

/-- How often `b` occurs in the neighbor list of node `a` (0 when `a`
is not in the graph). -/
def Graph.neighborCount (g : Graph) (a b : Int) : Nat :=
  match g.nodes.lookup a with
  | some node => node.neighbors.count b
  | none => 0

/-- Fold a sequence of `add_edge` calls, each leaving the graph
unchanged when it errors (as the Rust method mutates nothing on the
error path). -/
def Graph.addEdges (g : Graph) (calls : List (Int × Int)) : Graph :=
  calls.foldl (fun acc c =>
    match acc.add_edge c.1 c.2 with
    | .ok g2 => g2
    | .error _ => acc) g

/-- The `loop` of `Graph::run`, with explicit fuel bounding the number
of remaining iterations (`none` = the fuel ran out with the loop still
going; the Rust loop runs unboundedly).  Alongside the transcript the
embedding returns the number of agent invocations made — pure
instrumentation.  Per iteration: a missing current node appends the
`does not exist` marker and stops; otherwise the node's agent runs on
the current input with the combined node-local/global registry view,
its output plus `\n` is appended, and the loop either stops (no next
id), stops with the marker (unknown next id), or continues with the
output as the next input. -/
def Graph.runFrom (g : Graph) :
    Nat → Int → String → String → Nat → Option (String × Nat)
  | 0, _, _, _, _ => none
  | fuel + 1, current_id, current_input, result, calls =>
      match g.nodes.lookup current_id with
      | none =>
          some (result ++ ("Error: Node " ++ toString current_id
            ++ " does not exist\n"), calls)
      | some node =>
          let registry :=
            CombinedToolRegistry.view
              { primary := node.tool_registry, secondary := g.tool_registry }
          let r := node.agent current_input registry
          let result := result ++ r.1 ++ "\n"
          match r.2 with
          | some next =>
              if (g.nodes.lookup next).isSome then
                g.runFrom fuel next r.1 result (calls + 1)
              else
                some (result ++ ("Error: Node " ++ toString next
                  ++ " does not exist\n"), calls + 1)
          | none => some (result, calls + 1)

/-- `Graph::run` with explicit fuel: start the dispatch loop at
`start_id` with the initial input, an empty transcript and no
invocations yet. -/
def Graph.run (g : Graph) (fuel : Nat) (start_id : Int) (input : String) :
    Option (String × Nat) :=
  g.runFrom fuel start_id input "" 0

/-- The `EchoAgent` of `src/tests.rs`: echoes the input, terminates. -/
def EchoAgent : AgentFun := fun input _ => ("Echo: " ++ input, none)

/-- The `FixedRouteAgent` of `src/tests.rs`: reports and routes to the
fixed target node. -/
def FixedRouteAgent (target : Int) : AgentFun := fun input _ =>
  ("Routing '" ++ input ++ "' to node " ++ toString target, some target)

/-- The C7 scenario graph: node 0 a FixedRoute agent targeting node 1,
node 1 an Echo agent, with edge(0,1) recorded in the adjacency lists. -/
def c7Graph : Graph :=
  { nodes :=
      [ (0, { agent := FixedRouteAgent 1, neighbors := [1], tool_registry := emptyRegistry })
      , (1, { agent := EchoAgent, neighbors := [0], tool_registry := emptyRegistry }) ]
    tool_registry := emptyRegistry }

/-- A graph with no nodes, for the C6 witness. -/
def emptyGraph : Graph :=
  { nodes := [], tool_registry := emptyRegistry }

/-- The C9 witness graph: two Echo nodes 0 and 1 with empty neighbor
lists. -/
def c9Graph : Graph :=
  { nodes :=
      [ (0, { agent := EchoAgent, neighbors := [], tool_registry := emptyRegistry })
      , (1, { agent := EchoAgent, neighbors := [], tool_registry := emptyRegistry }) ]
    tool_registry := emptyRegistry }

end LLMGraph

namespace LLMGraph

-- -----------------------------
-- Helper lemmas
-- -----------------------------

/-- An infix occurrence survives extending the scanned list on the
left. -/
theorem listContainsInfix_append_right (xs ys pat : List Char)
    (h : listContainsInfix pat ys = true) :
    listContainsInfix pat (xs ++ ys) = true := by
  induction xs with
  | nil => simpa using h
  | cons c rest ih =>
      simp only [List.cons_append, listContainsInfix, Bool.or_eq_true]
      exact Or.inr ih

/-- A substring occurrence survives prepending more text. -/
theorem strContains_append_right (a b pat : String)
    (h : strContains b pat = true) :
    strContains (a ++ b) pat = true := by
  unfold strContains at h ⊢
  rw [String.data_append]
  exact listContainsInfix_append_right a.data b.data pat.data h

/-- The first projection of a `StatefulAgent.run` result record. -/
theorem StatefulAgent.run_state (a : StatefulAgent) (input : String) :
    ((a.run input).2).state =
      (match a.processor with
        | some p => (p input (a.updateState input)).2
        | none => a.updateState input) := by
  cases h : a.processor <;> simp [StatefulAgent.run, h]

end LLMGraph

-- -----------------------------
-- Claim theorems
-- -----------------------------

/-- C1: the claim fails on the code. `CombinedToolRegistry::execute_tool`
falls through to the secondary on any primary error, not only when the
name is absent from the primary: with a primary exposing tool `X` whose
execution fails with `boom` and an empty secondary, the combined
registry returns the secondary's `Tool 'X' not found` instead of the
primary's execution error `boom`. -/
theorem LLMGraph.c1_primary_execution_error_masked :
    (LLMGraph.c1Primary.get_tools.any (fun t => t.function.name == "X")) = true
  ∧ LLMGraph.c1Primary.execute_tool "X" "{}" = .error "boom"
  ∧ (LLMGraph.CombinedToolRegistry.execute_tool
      { primary := LLMGraph.c1Primary, secondary := LLMGraph.emptyRegistry } "X" "{}")
      = .error "Tool 'X' not found" :=
  ⟨rfl, rfl, rfl⟩

/-- C2: the claim fails on the code. With `max_retries = 3`, the
default failure predicate and an inner agent whose every invocation
produces the failing output `error` with next node 7, exhausting all
4 attempts returns the last attempt's raw `("error", some 7)` verbatim
(after 4 inner invocations) — the output does not begin with
`All 3 retries exhausted`: the loop's early return fires on
`attempt == max_retries`, so the post-loop synthesized-message code is
unreachable. -/
theorem LLMGraph.c2_exhausted_retries_return_raw_output :
    LLMGraph.c2Agent.run = (("error", some 7), 4)
  ∧ LLMGraph.strStartsWith (LLMGraph.c2Agent.run).1.1 "All 3 retries exhausted" = false
  ∧ (LLMGraph.c2Agent.run).1.1
      ≠ "All 3 retries exhausted. Last output: error" :=
  ⟨rfl, rfl, by decide⟩

/-- Auxiliary for C3: when the inner agent fails on every attempt
before `k` and does not fail on attempt `k ≤ max_retries`, the retry
loop entered at attempt `j ≤ k` returns the `k`-th result verbatim
after `k - j + 1` further inner invocations. -/
theorem LLMGraph.RetryAgent.runFrom_first_success (a : LLMGraph.RetryAgent) (k : Nat)
    (hk : k ≤ a.max_retries)
    (hsucc : a.should_retry (a.inner k).1 = false) :
    ∀ d j last_output last_next_node calls, j + d = k →
      (∀ i, j ≤ i → i < k → a.should_retry (a.inner i).1 = true) →
      a.runFrom (a.max_retries + 1 - j) j last_output last_next_node calls
        = (a.inner k, calls + d + 1) := by
  intro d
  induction d with
  | zero =>
      intro j lo ln c hj _
      have hjk : j = k := by omega
      subst hjk
      have hfuel : a.max_retries + 1 - j = (a.max_retries - j) + 1 := by omega
      rw [hfuel]
      simp only [LLMGraph.RetryAgent.runFrom, hsucc, Bool.not_false, Bool.true_or,
        if_pos]
  | succ d ih =>
      intro j lo ln c hj hfail
      have hjk : j < k := by omega
      have hfuel : a.max_retries + 1 - j = (a.max_retries - j) + 1 := by omega
      rw [hfuel]
      have h1 : a.should_retry (a.inner j).1 = true := hfail j le_rfl hjk
      have h2 : (j == a.max_retries) = false := by
        have : j ≠ a.max_retries := by omega
        simpa using this
      simp only [LLMGraph.RetryAgent.runFrom, h1, h2, Bool.not_true, Bool.or_false,
        if_neg, Bool.false_eq_true, not_false_eq_true]
      have hfuel2 : a.max_retries - j = a.max_retries + 1 - (j + 1) := by omega
      rw [hfuel2, ih (j + 1) (a.inner j).1 (a.inner j).2 (c + 1) (by omega)
        (fun i hi1 hi2 => hfail i (by omega) hi2)]
      have : c + 1 + d + 1 = c + (d + 1) + 1 := by omega
      rw [this]

/-- C3: an inner agent that fails (per the failure predicate) on
exactly its first `k` invocations and does not fail on invocation
`k + 1`, wrapped with `max_retries ≥ k`, makes the Retry combinator
perform exactly `k + 1` inner invocations and return that successful
attempt's `(output, next_node)` pair verbatim. -/
theorem LLMGraph.c3_retry_returns_first_success (a : LLMGraph.RetryAgent) (k : Nat)
    (hk : k ≤ a.max_retries)
    (hfail : ∀ i, i < k → a.should_retry (a.inner i).1 = true)
    (hsucc : a.should_retry (a.inner k).1 = false) :
    a.run = (a.inner k, k + 1) := by
  have h := a.runFrom_first_success k hk hsucc k 0 "" none 0 (by omega)
    (fun i _ hi2 => hfail i hi2)
  simpa [LLMGraph.RetryAgent.run] using h

/-- C3 witness: the concrete inner agent failing twice then producing
`("ok", some 5)`, wrapped with `max_retries = 3`, yields that result
after exactly 3 invocations. -/
theorem LLMGraph.c3_retry_returns_first_success_witness :
    LLMGraph.c3Agent.run = (("ok", some 5), 3) :=
  (LLMGraph.c3_retry_returns_first_success LLMGraph.c3Agent 2 (by decide)
    (by decide) (by decide)).trans rfl

/-- C4: every invocation of the Stateful wrapper increments
`execution_count` by exactly 1, appends the raw input to `history`,
and evicts exactly the oldest entry when the history length exceeds
`max_history`; hence the history length never exceeds `max_history`
after an invocation if it did not before; every `run` applies exactly
this update before the (optional) processor sees the state; and the
concrete wrapper with `max_history = 5` invoked on 8 inputs ends with
history of length 5 holding the 4th through 8th inputs in order. -/
theorem LLMGraph.c4_stateful_history_invariant (a : LLMGraph.StatefulAgent)
    (input : String)
    (hlen : a.state.history.length ≤ a.max_history) :
    (a.updateState input).execution_count = a.state.execution_count + 1
  ∧ (a.updateState input).history =
      (if a.state.history.length + 1 > a.max_history
        then (a.state.history ++ [input]).eraseIdx 0
        else a.state.history ++ [input])
  ∧ (a.updateState input).history.length ≤ a.max_history
  ∧ (∀ b : LLMGraph.StatefulAgent, ((b.run input).2).state =
      (match b.processor with
        | some p => (p input (b.updateState input)).2
        | none => b.updateState input))
  ∧ (LLMGraph.c4Agent.runInputs LLMGraph.c4Inputs).state.history
      = ["in4", "in5", "in6", "in7", "in8"]
  ∧ (LLMGraph.c4Agent.runInputs LLMGraph.c4Inputs).state.history.length = 5
  ∧ (LLMGraph.c4Agent.runInputs LLMGraph.c4Inputs).state.execution_count = 8 := by
  refine ⟨?_, ?_, ?_, ?_, by decide, by decide, rfl⟩
  · simp only [LLMGraph.StatefulAgent.updateState]
    split <;> rfl
  · simp only [LLMGraph.StatefulAgent.updateState, List.length_append,
      List.length_singleton]
    split <;> rfl
  · simp only [LLMGraph.StatefulAgent.updateState, List.length_append,
      List.length_singleton]
    split
    · simp only [List.length_eraseIdx, List.length_append, List.length_singleton]
      split <;> omega
    · simp only [List.length_append, List.length_singleton]
      omega
  · intro b
    exact LLMGraph.StatefulAgent.run_state b input

/-- C4 witness: the invariant applied to a fresh wrapper (history
empty, `max_history = 100`) on input `x`: the execution counter goes
from 0 to 1. -/
theorem LLMGraph.c4_stateful_history_invariant_witness :
    ((LLMGraph.StatefulAgent.new "W").updateState "x").execution_count
      = (LLMGraph.StatefulAgent.new "W").state.execution_count + 1 :=
  (LLMGraph.c4_stateful_history_invariant (LLMGraph.StatefulAgent.new "W") "x"
    (by decide)).1

/-- C5: for registries whose tool lists are duplicate-free by name,
the combined registry's `get_tools` is the union of both spec lists
deduplicated by name with the primary's definition winning on a name
collision, and for the concrete pair primary = {X, Y},
secondary = {X, Z} it is exactly the three entries
{Z, primary's X, Y}. -/
theorem LLMGraph.c5_scoped_list_deduped_union (p s : LLMGraph.ToolRegistryTrait)
    (hp : (LLMGraph.toolNames p.get_tools).Nodup)
    (hs : (LLMGraph.toolNames s.get_tools).Nodup) :
    (LLMGraph.toolNames
      (LLMGraph.CombinedToolRegistry.get_tools { primary := p, secondary := s })).Nodup
  ∧ (∀ t : LLMGraph.Tool,
      t ∈ LLMGraph.CombinedToolRegistry.get_tools { primary := p, secondary := s } ↔
        (t ∈ p.get_tools
          ∨ (t ∈ s.get_tools ∧ t.function.name ∉ LLMGraph.toolNames p.get_tools)))
  ∧ LLMGraph.CombinedToolRegistry.get_tools
      { primary := LLMGraph.c5Primary, secondary := LLMGraph.c5Secondary }
      = [LLMGraph.zTool, LLMGraph.xToolPrimary, LLMGraph.yTool] := by
  refine ⟨?_, ?_, rfl⟩
  · simp only [LLMGraph.CombinedToolRegistry.get_tools, LLMGraph.toolNames,
      List.map_append]
    refine List.Nodup.append ?_ hp ?_
    · exact ((List.filter_sublist s.get_tools).map _).nodup hs
    · intro x hx1 hx2
      simp only [List.mem_map, List.mem_filter, Bool.not_eq_true', List.any_eq_false,
        beq_eq_false_iff_ne, ne_eq] at hx1 hx2
      obtain ⟨t, ⟨-, hnot⟩, hname⟩ := hx1
      obtain ⟨t', ht'mem, hname'⟩ := hx2
      exact hnot t' ht'mem (by simpa using hname'.trans hname.symm)
  · intro t
    simp only [LLMGraph.CombinedToolRegistry.get_tools, LLMGraph.toolNames,
      List.mem_append, List.mem_filter, Bool.not_eq_true', List.any_eq_false,
      beq_eq_false_iff_ne, ne_eq, List.mem_map, not_exists, not_and]
    constructor
    · rintro (⟨hmem, hnone⟩ | hmem)
      · exact Or.inr ⟨hmem, fun t' ht' h => hnone t' ht' (by simpa using h)⟩
      · exact Or.inl hmem
    · rintro (hmem | ⟨hmem, hnone⟩)
      · exact Or.inr hmem
      · exact Or.inl ⟨hmem, fun t' ht' h => hnone t' ht' (by simpa using h)⟩

/-- C5 witness: the combined list of the concrete scenario registries,
via the theorem: exactly {Z, primary's X, Y}. -/
theorem LLMGraph.c5_scoped_list_deduped_union_witness :
    LLMGraph.CombinedToolRegistry.get_tools
      { primary := LLMGraph.c5Primary, secondary := LLMGraph.c5Secondary }
      = [LLMGraph.zTool, LLMGraph.xToolPrimary, LLMGraph.yTool] :=
  (LLMGraph.c5_scoped_list_deduped_union LLMGraph.c5Primary LLMGraph.c5Secondary
    (by decide) (by decide)).2.2

/-- C6: running the graph from a start id with no node invokes no
agent (invocation count 0) and yields a transcript that is exactly the
`Error: Node <id> does not exist` line — in particular it contains the
`does not exist` marker. -/
theorem LLMGraph.c6_missing_start_node (g : LLMGraph.Graph) (start : Int)
    (input : String) (fuel : Nat)
    (hstart : g.nodes.lookup start = none) :
    g.run (fuel + 1) start input
      = some ("" ++ ("Error: Node " ++ toString start ++ " does not exist\n"), 0)
  ∧ LLMGraph.strContains
      ("" ++ ("Error: Node " ++ toString start ++ " does not exist\n"))
      "does not exist" = true := by
  constructor
  · simp [LLMGraph.Graph.run, LLMGraph.Graph.runFrom, hstart]
  · apply LLMGraph.strContains_append_right
    apply LLMGraph.strContains_append_right
    decide

/-- C6 witness: the empty graph run from node 0. -/
theorem LLMGraph.c6_missing_start_node_witness :
    LLMGraph.emptyGraph.run 1 0 "x"
      = some ("" ++ ("Error: Node " ++ toString (0 : Int) ++ " does not exist\n"), 0)
  ∧ LLMGraph.strContains
      ("" ++ ("Error: Node " ++ toString (0 : Int) ++ " does not exist\n"))
      "does not exist" = true :=
  LLMGraph.c6_missing_start_node LLMGraph.emptyGraph 0 "x" 0 rfl

/-- C7: in the graph {0: FixedRoute-to-1, 1: Echo} with edge(0,1),
`run(0, "hi")` invokes both agents, threads the first agent's output
as the second's input, and yields the transcript
`Routing 'hi' to node 1\nEcho: Routing 'hi' to node 1\n` — each
agent's output followed by the newline separator. -/
theorem LLMGraph.c7_fixed_route_echo_transcript :
    LLMGraph.c7Graph.run 10 0 "hi"
      = some ("Routing 'hi' to node 1\nEcho: Routing 'hi' to node 1\n", 2) :=
  rfl

/-- C8: for a Parallel combinator over three inner agents producing
`a`, `b`, `c` on the given input (registered in that order, no
timeout) under the `JsonArray` strategy, `run` returns the compact
serialization of the ordered result list — textually
`["a","b","c"]` — with `None` as next node; the results enter in
registration order by construction of the embedding, mirroring
`join_all`'s order guarantee. -/
theorem LLMGraph.c8_parallel_json_array (f g h : LLMGraph.AgentFun) (input : String)
    (reg : LLMGraph.ToolRegistryTrait)
    (hf : (f input reg).1 = "a") (hg : (g input reg).1 = "b")
    (hh : (h input reg).1 = "c") :
    LLMGraph.ParallelAgent.run
      { agents := [f, g, h], strategy := .JsonArray, name := "Parallel",
        timeout := none } input reg false
      = ("[\"a\",\"b\",\"c\"]", none) := by
  simp only [LLMGraph.ParallelAgent.run, LLMGraph.ParallelAgent.combine_results,
    List.isEmpty_cons, List.map_cons, List.map_nil, hf, hg, hh]
  rfl

/-- C8 witness: three constant agents producing `a`, `b`, `c`. -/
theorem LLMGraph.c8_parallel_json_array_witness :
    LLMGraph.c8Agent.run "input" LLMGraph.emptyRegistry false
      = ("[\"a\",\"b\",\"c\"]", none) :=
  LLMGraph.c8_parallel_json_array (LLMGraph.constAgent "a") (LLMGraph.constAgent "b")
    (LLMGraph.constAgent "c") "input" LLMGraph.emptyRegistry rfl rfl rfl

/-- C10: whatever the input, registry, agent list, combine strategy,
timeout configuration and timeout outcome, the Parallel combinator's
`run` returns `none` as the next-node id on every path — empty agent
list, timeout, and normal combination alike. -/
theorem LLMGraph.c10_parallel_always_returns_no_next_node
    (a : LLMGraph.ParallelAgent) (input : String)
    (reg : LLMGraph.ToolRegistryTrait) (timed_out : Bool) :
    (a.run input reg timed_out).2 = none := by
  unfold LLMGraph.ParallelAgent.run
  split
  · rfl
  · split
    · split
      · rfl
      · rfl
    · rfl

namespace LLMGraph

/-- Looking a key up after mapping the per-key update over an
association list: the stored value is transformed exactly under the
updated key. -/
theorem lookup_map_update (nodes : List (Int × Node)) (id : Int)
    (f : Node → Node) (k : Int) :
    (nodes.map (fun p => if p.1 = id then (p.1, f p.2) else p)).lookup k
      = if k = id then (nodes.lookup k).map f else nodes.lookup k := by
  induction nodes with
  | nil => simp [List.lookup]
  | cons p rest ih =>
      simp only [List.map_cons]
      by_cases hp : p.1 = id
      · subst hp
        rw [if_pos rfl]
        by_cases hk : k = p.1
        · subst hk
          simp [List.lookup]
        · have hbeq : (k == p.1) = false := by simpa using hk
          simp [List.lookup, hbeq, hk, ih]
      · rw [if_neg hp]
        by_cases hk : k = p.1
        · subst hk
          simp [List.lookup, hp]
        · have hbeq : (k == p.1) = false := by simpa using hk
          simp [List.lookup, hbeq, ih]

/-- `updateNode` transforms exactly the targeted node's entry. -/
theorem updateNode_lookup (g : Graph) (id : Int) (f : Node → Node) (k : Int) :
    (g.updateNode id f).nodes.lookup k
      = if k = id then (g.nodes.lookup k).map f else g.nodes.lookup k :=
  lookup_map_update g.nodes id f k

/-- `updateNode` neither adds nor removes keys. -/
theorem updateNode_containsKey (g : Graph) (id : Int) (f : Node → Node) (k : Int) :
    (g.updateNode id f).containsKey k = g.containsKey k := by
  simp only [Graph.containsKey, updateNode_lookup]
  split <;> simp

/-- Effect of one successful `add_edge u v` on the two neighbor
counts: a count of 0 becomes 1, a positive count is unchanged; the key
set is untouched. -/
theorem add_edge_effect (g : Graph) (u v : Int)
    (hu : g.containsKey u = true) (hv : g.containsKey v = true) :
    ∃ g2, g.add_edge u v = .ok g2
      ∧ (∀ k, g2.containsKey k = g.containsKey k)
      ∧ g2.neighborCount u v
          = (if g.neighborCount u v = 0 then 1 else g.neighborCount u v)
      ∧ g2.neighborCount v u
          = (if g.neighborCount v u = 0 then 1 else g.neighborCount v u) := by
  have hu2 : (g.nodes.lookup u).isSome = true := hu
  have hv2 : (g.nodes.lookup v).isSome = true := hv
  obtain ⟨nU, hnU⟩ := Option.isSome_iff_exists.mp hu2
  obtain ⟨nV, hnV⟩ := Option.isSome_iff_exists.mp hv2
  refine ⟨(g.updateNode u (fun node =>
      if node.neighbors.contains v then node
      else { node with neighbors := node.neighbors ++ [v] })).updateNode v
        (fun node =>
          if node.neighbors.contains u then node
          else { node with neighbors := node.neighbors ++ [u] }), ?_, ?_, ?_, ?_⟩
  · simp [Graph.add_edge, hu, hv]
  · intro k
    rw [updateNode_containsKey, updateNode_containsKey]
  · by_cases huv : u = v
    · subst huv
      simp only [Graph.neighborCount, updateNode_lookup, if_pos rfl, hnU,
        Option.map_map, Option.map_some]
      by_cases hc : u ∈ nU.neighbors
      · have hcount : nU.neighbors.count u ≠ 0 := by
          simpa [List.count_eq_zero] using hc
        simp [Function.comp, hc, hcount]
      · have hcount : nU.neighbors.count u = 0 := by
          rw [List.count_eq_zero]
          exact hc
        simp [Function.comp, hc, hcount, List.count_append]
    · simp only [Graph.neighborCount, updateNode_lookup, if_neg huv, if_pos rfl,
        hnU, Option.map_some]
      by_cases hc : v ∈ nU.neighbors
      · have hcount : nU.neighbors.count v ≠ 0 := by
          simpa [List.count_eq_zero] using hc
        simp [hc, hcount]
      · have hcount : nU.neighbors.count v = 0 := by
          rw [List.count_eq_zero]
          exact hc
        simp [hc, hcount, List.count_append]
  · by_cases huv : u = v
    · subst huv
      simp only [Graph.neighborCount, updateNode_lookup, if_pos rfl, hnU,
        Option.map_map, Option.map_some]
      by_cases hc : u ∈ nU.neighbors
      · have hcount : nU.neighbors.count u ≠ 0 := by
          simpa [List.count_eq_zero] using hc
        simp [Function.comp, hc, hcount]
      · have hcount : nU.neighbors.count u = 0 := by
          rw [List.count_eq_zero]
          exact hc
        simp [Function.comp, hc, hcount, List.count_append]
    · have hvu : ¬ v = u := fun h => huv h.symm
      simp only [Graph.neighborCount, updateNode_lookup, if_pos rfl, if_neg hvu,
        hnV, Option.map_some]
      by_cases hc : u ∈ nV.neighbors
      · have hcount : nV.neighbors.count u ≠ 0 := by
          simpa [List.count_eq_zero] using hc
        simp [hc, hcount]
      · have hcount : nV.neighbors.count u = 0 := by
          rw [List.count_eq_zero]
          exact hc
        simp [hc, hcount, List.count_append]

/-- Any further sequence of `add_edge` calls on the pair (in either
argument order) keeps both neighbor counts at exactly 1. -/
theorem addEdges_keep_one (u v : Int) :
    ∀ (calls : List (Int × Int)), (∀ c ∈ calls, c = (u, v) ∨ c = (v, u)) →
    ∀ g : Graph, g.containsKey u = true → g.containsKey v = true →
      g.neighborCount u v = 1 → g.neighborCount v u = 1 →
      (g.addEdges calls).neighborCount u v = 1
        ∧ (g.addEdges calls).neighborCount v u = 1 := by
  intro calls
  induction calls with
  | nil =>
      intro _ g _ _ h1 h2
      exact ⟨h1, h2⟩
  | cons c rest ih =>
      intro hcalls g hu hv h1 h2
      rcases hcalls c (List.mem_cons_self c rest) with hc | hc <;> subst hc
      · obtain ⟨g2, hok, hkeys, hcu, hcv⟩ := add_edge_effect g u v hu hv
        have hstep : Graph.addEdges g ((u, v) :: rest) = Graph.addEdges g2 rest := by
          simp [Graph.addEdges, hok]
        rw [hstep]
        exact ih (fun c hcm => hcalls c (List.mem_cons_of_mem _ hcm)) g2
          (by rw [hkeys u]; exact hu) (by rw [hkeys v]; exact hv)
          (by simp [hcu, h1]) (by simp [hcv, h2])
      · obtain ⟨g2, hok, hkeys, hcv, hcu⟩ := add_edge_effect g v u hv hu
        have hstep : Graph.addEdges g ((v, u) :: rest) = Graph.addEdges g2 rest := by
          simp [Graph.addEdges, hok]
        rw [hstep]
        exact ih (fun c hcm => hcalls c (List.mem_cons_of_mem _ hcm)) g2
          (by rw [hkeys u]; exact hu) (by rw [hkeys v]; exact hv)
          (by simp [hcu, h1]) (by simp [hcv, h2])

end LLMGraph

/-- C9: on a graph containing both endpoints and with neither endpoint
yet in the other's neighbor list, any nonempty sequence of repeated
`add_edge` calls on the pair — in either argument order — leaves `v`
exactly once in `u`'s neighbor list and `u` exactly once in `v`'s
(symmetry and idempotence); and whenever either endpoint is absent,
`add_edge` returns the `One or both nodes do not exist` error without
touching any neighbor list. -/
theorem LLMGraph.c9_add_edge_symmetric_idempotent (g : LLMGraph.Graph) (u v : Int)
    (calls : List (Int × Int))
    (hu : g.containsKey u = true) (hv : g.containsKey v = true)
    (h0u : g.neighborCount u v = 0) (h0v : g.neighborCount v u = 0)
    (hne : calls ≠ [])
    (hcalls : ∀ c ∈ calls, c = (u, v) ∨ c = (v, u)) :
    ((g.addEdges calls).neighborCount u v = 1
      ∧ (g.addEdges calls).neighborCount v u = 1)
  ∧ (∀ (g0 : LLMGraph.Graph) (u0 v0 : Int),
      (g0.containsKey u0 = false ∨ g0.containsKey v0 = false) →
      g0.add_edge u0 v0 = .error "One or both nodes do not exist") := by
  constructor
  · obtain ⟨c, rest, rfl⟩ : ∃ c rest, calls = c :: rest := by
      cases calls with
      | nil => exact absurd rfl hne
      | cons c rest => exact ⟨c, rest, rfl⟩
    rcases hcalls c (List.mem_cons_self c rest) with hc | hc <;> subst hc
    · obtain ⟨g2, hok, hkeys, hcu, hcv⟩ := LLMGraph.add_edge_effect g u v hu hv
      have hstep : LLMGraph.Graph.addEdges g ((u, v) :: rest)
          = LLMGraph.Graph.addEdges g2 rest := by
        simp [LLMGraph.Graph.addEdges, hok]
      rw [hstep]
      exact LLMGraph.addEdges_keep_one u v rest
        (fun c hcm => hcalls c (List.mem_cons_of_mem _ hcm)) g2
        (by rw [hkeys u]; exact hu) (by rw [hkeys v]; exact hv)
        (by simp [hcu, h0u]) (by simp [hcv, h0v])
    · obtain ⟨g2, hok, hkeys, hcv, hcu⟩ := LLMGraph.add_edge_effect g v u hv hu
      have hstep : LLMGraph.Graph.addEdges g ((v, u) :: rest)
          = LLMGraph.Graph.addEdges g2 rest := by
        simp [LLMGraph.Graph.addEdges, hok]
      rw [hstep]
      exact LLMGraph.addEdges_keep_one u v rest
        (fun c hcm => hcalls c (List.mem_cons_of_mem _ hcm)) g2
        (by rw [hkeys u]; exact hu) (by rw [hkeys v]; exact hv)
        (by simp [hcu, h0u]) (by simp [hcv, h0v])
  · intro g0 u0 v0 h0
    unfold LLMGraph.Graph.add_edge
    rcases h0 with h0 | h0 <;> simp [h0]

/-- C9 witness: on the two-node graph, the call sequence
add_edge(0,1); add_edge(1,0); add_edge(0,1) leaves each node exactly
once in the other's neighbor list. -/
theorem LLMGraph.c9_add_edge_symmetric_idempotent_witness :
    (LLMGraph.c9Graph.addEdges [(0, 1), (1, 0), (0, 1)]).neighborCount 0 1 = 1
  ∧ (LLMGraph.c9Graph.addEdges [(0, 1), (1, 0), (0, 1)]).neighborCount 1 0 = 1 :=
  (LLMGraph.c9_add_edge_symmetric_idempotent LLMGraph.c9Graph 0 1
    [(0, 1), (1, 0), (0, 1)] rfl rfl rfl rfl (by decide) (by decide)).1
